import Mathlib

/-!
Verification development for the Geo3GlobVisualizer repository.

The geographic kernel lives in `src/client/components/Globe.tsx`
(`getPositionFromLatLon`, `getLatLonFromPoint`, the click scan in
`handleGlobeClick`) and the selection state machine in `src/client/App.tsx`
(`handleCountrySelect`, the search path).  Numeric code is embedded over the
exact reals; external library functions (the d3-geo polygon-containment
primitive, d3.geoCentroid, the JS locale comparator used by `Array.sort`, and
the awaited OpenAI request) are abstract parameters, while the dispatch
behaviour of `d3.geoContains` on geometry types — which the repository relies
on — is modelled explicitly.
-/

open Real

/-- three.js `Vector3` restricted to the fields the repository uses. -/
structure Vec3 where
  x : ℝ
  y : ℝ
  z : ℝ

/-- `Coordinates` from `src/client/types.ts`. -/
structure Coordinates where
  lat : ℝ
  lng : ℝ

/-- three.js `Vector3.length`. -/
noncomputable def Vec3.length (v : Vec3) : ℝ :=
  Real.sqrt (v.x ^ 2 + v.y ^ 2 + v.z ^ 2)

/-- three.js `Vector3.normalize`: `divideScalar(this.length() || 1)` — divide
by the length, or leave the zero vector unchanged. -/
noncomputable def Vec3.normalize (v : Vec3) : Vec3 :=
  if v.length = 0 then v else ⟨v.x / v.length, v.y / v.length, v.z / v.length⟩

/-- three.js `Vector3.multiplyScalar`. -/
def Vec3.multiplyScalar (v : Vec3) (s : ℝ) : Vec3 :=
  ⟨v.x * s, v.y * s, v.z * s⟩

/-- JavaScript truncation toward zero (the rounding used by the `%`
operator). -/
noncomputable def jsTrunc (x : ℝ) : ℤ :=
  if 0 ≤ x then ⌊x⌋ else ⌈x⌉

/-- The JavaScript remainder operator `a % b` on finite reals: the remainder
after truncating division, carrying the sign of the dividend. -/
noncomputable def jsMod (a b : ℝ) : ℝ :=
  a - b * jsTrunc (a / b)

/-- JavaScript `Math.atan2 y x`, realised as the complex argument of
`x + y i`; its value lies in `(-π, π]` and `atan2 0 0 = 0`. -/
noncomputable def atan2 (y x : ℝ) : ℝ :=
  Complex.arg (Complex.ofReal x + Complex.ofReal y * Complex.I)

/-- `getPositionFromLatLon` from `Globe.tsx`: convert latitude/longitude to a
3D position on a sphere of the given radius. -/
noncomputable def getPositionFromLatLon (lat lng radius : ℝ) : Vec3 :=
  let phi := (90 - lat) * (Real.pi / 180)
  let theta := (lng + 180) * (Real.pi / 180)
  ⟨-(radius * Real.sin phi * Real.cos theta),
   radius * Real.cos phi,
   radius * Real.sin phi * Real.sin theta⟩

/-- The longitude-normalisation step `((lng + 540) % 360) - 180` used in
`getLatLonFromPoint`. -/
noncomputable def normalizeLng (lng : ℝ) : ℝ :=
  jsMod (lng + 540) 360 - 180

/-- `getLatLonFromPoint` from `Globe.tsx`: convert a 3D local point to
latitude/longitude, normalising the input vector first. -/
noncomputable def getLatLonFromPoint (point : Vec3) : Coordinates :=
  let p := point.normalize
  let lat := Real.arcsin p.y * 180 / Real.pi
  let theta := atan2 p.z (-p.x)
  let lng := theta * 180 / Real.pi - 180
  ⟨lat, normalizeLng lng⟩

/-- A vector of length 1 is left unchanged by `normalize`. -/
theorem Vec3.normalize_of_length_one {v : Vec3} (h : v.length = 1) :
    v.normalize = v := by
  unfold Vec3.normalize
  rw [h]
  simp

/-- The forward conversion at radius 1 lands on the unit sphere. -/
theorem length_getPositionFromLatLon (lat lng : ℝ) :
    (getPositionFromLatLon lat lng 1).length = 1 := by
  unfold getPositionFromLatLon Vec3.length
  have hs1 := Real.sin_sq_add_cos_sq ((90 - lat) * (Real.pi / 180))
  have hs2 := Real.sin_sq_add_cos_sq ((lng + 180) * (Real.pi / 180))
  have : (-(1 * Real.sin ((90 - lat) * (Real.pi / 180)) *
        Real.cos ((lng + 180) * (Real.pi / 180)))) ^ 2 +
      (1 * Real.cos ((90 - lat) * (Real.pi / 180))) ^ 2 +
      (1 * Real.sin ((90 - lat) * (Real.pi / 180)) *
        Real.sin ((lng + 180) * (Real.pi / 180))) ^ 2 = 1 := by
    nlinarith [hs1, hs2]
  rw [this, Real.sqrt_one]

/-- Evaluation of `jsMod a 360` on a nonnegative dividend sitting in the
`k`-th window. -/
theorem jsMod_window (a : ℝ) (k : ℤ) (hk : 0 ≤ k)
    (h1 : (k : ℝ) * 360 ≤ a) (h2 : a < ((k : ℝ) + 1) * 360) :
    jsMod a 360 = a - k * 360 := by
  have ha : (0 : ℝ) ≤ a := le_trans (by positivity) h1
  have h0 : (0 : ℝ) ≤ a / 360 := by positivity
  have hfl : ⌊a / 360⌋ = k := by
    rw [Int.floor_eq_iff]
    constructor
    · rw [le_div_iff₀ (by norm_num : (0:ℝ) < 360)]
      exact h1
    · rw [div_lt_iff₀ (by norm_num : (0:ℝ) < 360)]
      linarith
  unfold jsMod jsTrunc
  rw [if_pos h0, hfl]
  ring

/-- `atan2` evaluated on a positively scaled point of the unit circle
recovers the angle, for angles in the principal range. -/
theorem atan2_smul_cos_sin (r θ : ℝ) (hr : 0 < r)
    (hθ : θ ∈ Set.Ioc (-Real.pi) Real.pi) :
    atan2 (r * Real.sin θ) (r * Real.cos θ) = θ := by
  unfold atan2
  have hz : (Complex.ofReal (r * Real.cos θ) +
      Complex.ofReal (r * Real.sin θ) * Complex.I) =
      (Complex.ofReal r) * (Complex.ofReal (Real.cos θ) +
        Complex.ofReal (Real.sin θ) * Complex.I) := by
    push_cast
    ring
  rw [hz, Complex.arg_real_mul _ hr, Complex.ofReal_cos, Complex.ofReal_sin,
    Complex.arg_cos_add_sin_mul_I hθ]

/-- Core round-trip fact: at radius 1 the two conversions in `Globe.tsx` are
mutually inverse for latitudes in `(-90, 90)` and longitudes in
`[-180, 180)`. -/
theorem roundtrip_latlng (lat lng : ℝ) (h1 : -90 < lat) (h2 : lat < 90)
    (h3 : -180 ≤ lng) (h4 : lng < 180) :
    getLatLonFromPoint (getPositionFromLatLon lat lng 1) = ⟨lat, lng⟩ := by
  have hπ : 0 < Real.pi := Real.pi_pos
  have hnorm : (getPositionFromLatLon lat lng 1).normalize =
      getPositionFromLatLon lat lng 1 :=
    Vec3.normalize_of_length_one (length_getPositionFromLatLon lat lng)
  have hy : Real.arcsin (1 * Real.cos ((90 - lat) * (Real.pi / 180))) *
      180 / Real.pi = lat := by
    have ht1 : -(Real.pi / 2) ≤ lat * (Real.pi / 180) := by nlinarith
    have ht2 : lat * (Real.pi / 180) ≤ Real.pi / 2 := by nlinarith
    have hc : (90 - lat) * (Real.pi / 180) =
        Real.pi / 2 - lat * (Real.pi / 180) := by ring
    rw [one_mul, hc, Real.cos_pi_div_two_sub, Real.arcsin_sin ht1 ht2]
    field_simp
  have hφ1 : 0 < (90 - lat) * (Real.pi / 180) := by nlinarith
  have hφ2 : (90 - lat) * (Real.pi / 180) < Real.pi := by nlinarith
  have hsφ : 0 < Real.sin ((90 - lat) * (Real.pi / 180)) :=
    Real.sin_pos_of_pos_of_lt_pi hφ1 hφ2
  have hlng : normalizeLng (atan2
      (Real.sin ((90 - lat) * (Real.pi / 180)) *
        Real.sin ((lng + 180) * (Real.pi / 180)))
      (Real.sin ((90 - lat) * (Real.pi / 180)) *
        Real.cos ((lng + 180) * (Real.pi / 180))) * 180 / Real.pi - 180) =
      lng := by
    rcases le_or_lt lng 0 with hsplit | hsplit
    · have hθIoc : (lng + 180) * (Real.pi / 180) ∈
          Set.Ioc (-Real.pi) Real.pi := by
        constructor
        · nlinarith
        · nlinarith
      rw [atan2_smul_cos_sin _ _ hsφ hθIoc]
      have he : (lng + 180) * (Real.pi / 180) * 180 / Real.pi - 180 = lng := by
        field_simp
      rw [he]
      unfold normalizeLng
      rw [jsMod_window (lng + 540) 1 (by norm_num)
        (by push_cast; linarith) (by push_cast; linarith)]
      push_cast
      ring
    · have hsin : Real.sin ((lng + 180) * (Real.pi / 180)) =
          Real.sin ((lng + 180) * (Real.pi / 180) - 2 * Real.pi) :=
        (Real.sin_sub_two_pi _).symm
      have hcos : Real.cos ((lng + 180) * (Real.pi / 180)) =
          Real.cos ((lng + 180) * (Real.pi / 180) - 2 * Real.pi) :=
        (Real.cos_sub_two_pi _).symm
      have hθIoc : (lng + 180) * (Real.pi / 180) - 2 * Real.pi ∈
          Set.Ioc (-Real.pi) Real.pi := by
        constructor
        · nlinarith
        · nlinarith
      rw [hsin, hcos, atan2_smul_cos_sin _ _ hsφ hθIoc]
      have he : ((lng + 180) * (Real.pi / 180) - 2 * Real.pi) * 180 /
          Real.pi - 180 = lng - 360 := by
        field_simp
        ring
      rw [he]
      unfold normalizeLng
      rw [jsMod_window (lng - 360 + 540) 0 (by norm_num)
        (by push_cast; linarith) (by push_cast; linarith)]
      push_cast
      ring
  simp only [getLatLonFromPoint]
  rw [hnorm]
  simp only [getPositionFromLatLon]
  rw [Coordinates.mk.injEq]
  constructor
  · exact hy
  · have hargs : -(-(1 * Real.sin ((90 - lat) * (Real.pi / 180)) *
        Real.cos ((lng + 180) * (Real.pi / 180)))) =
        Real.sin ((90 - lat) * (Real.pi / 180)) *
          Real.cos ((lng + 180) * (Real.pi / 180)) := by ring
    have hargz : 1 * Real.sin ((90 - lat) * (Real.pi / 180)) *
        Real.sin ((lng + 180) * (Real.pi / 180)) =
        Real.sin ((90 - lat) * (Real.pi / 180)) *
          Real.sin ((lng + 180) * (Real.pi / 180)) := by ring
    rw [hargs, hargz]
    exact hlng

/-- A nonzero vector has positive length. -/
theorem Vec3.length_pos {v : Vec3} (h : v ≠ ⟨0, 0, 0⟩) : 0 < v.length := by
  have hsum : 0 < v.x ^ 2 + v.y ^ 2 + v.z ^ 2 := by
    by_contra hle
    push_neg at hle
    have hx : v.x ^ 2 = 0 :=
      le_antisymm (by nlinarith [sq_nonneg v.y, sq_nonneg v.z]) (sq_nonneg v.x)
    have hy : v.y ^ 2 = 0 :=
      le_antisymm (by nlinarith [sq_nonneg v.x, sq_nonneg v.z]) (sq_nonneg v.y)
    have hz : v.z ^ 2 = 0 :=
      le_antisymm (by nlinarith [sq_nonneg v.x, sq_nonneg v.y]) (sq_nonneg v.z)
    rw [sq_eq_zero_iff] at hx hy hz
    exact h (by cases v; simp_all)
  exact Real.sqrt_pos.mpr hsum

/-- Scaling a nonzero vector by a positive factor does not change its
normalisation. -/
theorem normalize_multiplyScalar (p : Vec3) (c : ℝ) (hc : 0 < c)
    (hp : p ≠ ⟨0, 0, 0⟩) : (p.multiplyScalar c).normalize = p.normalize := by
  have hL : 0 < p.length := Vec3.length_pos hp
  have hc' : c ≠ 0 := ne_of_gt hc
  have hL' : p.length ≠ 0 := ne_of_gt hL
  have hlen : (p.multiplyScalar c).length = c * p.length := by
    unfold Vec3.length Vec3.multiplyScalar
    have hsq : (p.x * c) ^ 2 + (p.y * c) ^ 2 + (p.z * c) ^ 2 =
        c ^ 2 * (p.x ^ 2 + p.y ^ 2 + p.z ^ 2) := by ring
    rw [hsq, Real.sqrt_mul (sq_nonneg c), Real.sqrt_sq hc.le]
  have hcL : c * p.length ≠ 0 := by positivity
  unfold Vec3.normalize
  rw [hlen, if_neg hcL, if_neg hL']
  simp only [Vec3.multiplyScalar]
  rw [Vec3.mk.injEq]
  refine ⟨?_, ?_, ?_⟩ <;> field_simp <;> ring

/-- C7: getLatLonFromPoint normalises its input first, so for every nonzero
point and positive scalar the scaled point resolves to the same geographic
coordinate as the original. -/
theorem C7_scaling_invariance (c : ℝ) (p : Vec3) (hc : 0 < c)
    (hp : p ≠ ⟨0, 0, 0⟩) :
    getLatLonFromPoint (p.multiplyScalar c) = getLatLonFromPoint p := by
  unfold getLatLonFromPoint
  rw [normalize_multiplyScalar p c hc hp]

/-- Witness for C7 at the concrete point (1,0,0) and scalar 2. -/
theorem C7_scaling_invariance_witness :
    (0 : ℝ) < 2 ∧ (⟨1, 0, 0⟩ : Vec3) ≠ ⟨0, 0, 0⟩ ∧
    getLatLonFromPoint ((⟨1, 0, 0⟩ : Vec3).multiplyScalar 2) =
      getLatLonFromPoint ⟨1, 0, 0⟩ :=
  ⟨by norm_num, by simp,
    C7_scaling_invariance 2 ⟨1, 0, 0⟩ (by norm_num) (by simp)⟩

/-- C1: for every latitude in (-90, 90) and longitude in [-180, 180),
converting to a 3D surface point at radius 1 with getPositionFromLatLon and
converting back with getLatLonFromPoint recovers the original pair exactly
(the real-arithmetic idealisation of "within a small numerical
tolerance"). -/
theorem C1_roundtrip (lat lng : ℝ) (h1 : -90 < lat) (h2 : lat < 90)
    (h3 : -180 ≤ lng) (h4 : lng < 180) :
    getLatLonFromPoint (getPositionFromLatLon lat lng 1) = ⟨lat, lng⟩ :=
  roundtrip_latlng lat lng h1 h2 h3 h4

/-- Witness for C1 at latitude 30, longitude 45. -/
theorem C1_roundtrip_witness :
    (-90 : ℝ) < 30 ∧ (30 : ℝ) < 90 ∧ (-180 : ℝ) ≤ 45 ∧ (45 : ℝ) < 180 ∧
    getLatLonFromPoint (getPositionFromLatLon 30 45 1) = ⟨30, 45⟩ :=
  ⟨by norm_num, by norm_num, by norm_num, by norm_num,
    C1_roundtrip 30 45 (by norm_num) (by norm_num) (by norm_num) (by norm_num)⟩

/-- normalizeLng maps raw longitudes in (-360, 0] into [-180, 180). -/
theorem normalizeLng_bounds (x : ℝ) (hx1 : -360 < x) (hx2 : x ≤ 0) :
    -180 ≤ normalizeLng x ∧ normalizeLng x < 180 := by
  unfold normalizeLng
  rcases le_or_lt (-180) x with hc | hc
  · rw [jsMod_window (x + 540) 1 (by norm_num) (by push_cast; linarith)
      (by push_cast; linarith)]
    push_cast
    constructor <;> linarith
  · rw [jsMod_window (x + 540) 0 (by norm_num) (by push_cast; linarith)
      (by push_cast; linarith)]
    push_cast
    constructor <;> linarith

/-- C4: the longitude produced by getLatLonFromPoint always lies in
[-180, 180), and the normalisation formula sends a raw longitude of 185
degrees to -175 degrees. -/
theorem C4_lng_range :
    (∀ p : Vec3, p ≠ ⟨0, 0, 0⟩ →
      -180 ≤ (getLatLonFromPoint p).lng ∧ (getLatLonFromPoint p).lng < 180) ∧
    normalizeLng 185 = -175 := by
  constructor
  · intro p _
    have hπ : 0 < Real.pi := Real.pi_pos
    simp only [getLatLonFromPoint]
    have htIoc : -Real.pi < atan2 p.normalize.z (-p.normalize.x) ∧
        atan2 p.normalize.z (-p.normalize.x) ≤ Real.pi := by
      unfold atan2
      exact ⟨(Complex.arg_mem_Ioc _).1, (Complex.arg_mem_Ioc _).2⟩
    have hu : atan2 p.normalize.z (-p.normalize.x) * 180 / Real.pi ≤ 180 := by
      rw [div_le_iff₀ hπ]
      nlinarith [htIoc.2]
    have hl : -180 < atan2 p.normalize.z (-p.normalize.x) * 180 / Real.pi := by
      rw [lt_div_iff₀ hπ]
      nlinarith [htIoc.1]
    exact normalizeLng_bounds _ (by linarith) (by linarith)
  · unfold normalizeLng
    rw [jsMod_window (185 + 540) 2 (by norm_num) (by norm_num) (by norm_num)]
    norm_num

/-- Witness for C4 at the concrete nonzero point (1,0,0). -/
theorem C4_lng_range_witness :
    (⟨1, 0, 0⟩ : Vec3) ≠ ⟨0, 0, 0⟩ ∧
    (-180 ≤ (getLatLonFromPoint ⟨1, 0, 0⟩).lng ∧
      (getLatLonFromPoint ⟨1, 0, 0⟩).lng < 180) :=
  ⟨by simp, C4_lng_range.1 ⟨1, 0, 0⟩ (by simp)⟩

/-- GeoJSON geometry as consumed by the repository: `Globe.tsx` dispatches on
`geometry.type` for `'Polygon'` and `'MultiPolygon'`; anything else — an
unsupported type or a missing (null) geometry — falls through every branch.
Ring coordinates are `[lng, lat]` pairs. -/
inductive Geometry where
  | polygon (coordinates : List (List (ℝ × ℝ)))
  | multiPolygon (coordinates : List (List (List (ℝ × ℝ))))
  | unsupportedType
  | missing

/-- A GeoJSON feature with the properties the repository reads:
`properties.NAME_LONG`, `properties.NAME`, `properties.name`,
`properties.ISO_A2`, and the boundary geometry.  `none` models an absent
property. -/
structure Feature where
  nameLong : Option String
  nameShort : Option String
  nameProp : Option String
  isoA2 : Option String
  geometry : Geometry

/-- JavaScript truthiness of an optional string: `undefined`/`null` and the
empty string are falsy. -/
def truthy : Option String → Bool
  | none => false
  | some s => !(s == "")

/-- The JavaScript `||` fallback on optional strings. -/
def jsOr (a b : Option String) : Option String :=
  if truthy a then a else b

/-- The name-resolution chain
`feature.properties.NAME_LONG || feature.properties.NAME ||
feature.properties.name` used in both `Globe.tsx` and `App.tsx`. -/
def resolvedName (f : Feature) : Option String :=
  jsOr f.nameLong (jsOr f.nameShort f.nameProp)

/-- One entry of the `countries` memo computed in `Globe.tsx`: resolved name,
ISO code, centroid, precomputed 3D position, and the feature's geometry
(standing in for the retained `feature`, whose geometry is its only field
read afterwards). -/
structure Country where
  name : Option String
  isoCode : Option String
  centroid : Coordinates
  position : Vec3
  geometry : Geometry

/-- Model of the external `d3.geoContains(feature, [lng, lat])` call: d3-geo
dispatches on the geometry type, delegating each outer polygon to its
spherical polygon-containment primitive (`prim`, kept abstract here, applied
to the polygon's rings and a `[lng, lat]` pair), and reports `false` for a
missing geometry or a geometry type it has no handler for. -/
def geoContains (prim : List (List (ℝ × ℝ)) → ℝ × ℝ → Bool) :
    Geometry → ℝ × ℝ → Bool
  | Geometry.polygon rings, pt => prim rings pt
  | Geometry.multiPolygon polys, pt => polys.any (fun rings => prim rings pt)
  | Geometry.unsupportedType, _ => false
  | Geometry.missing, _ => false

/-- The `countries` memo in `Globe.tsx`: map every feature of the loaded
GeoJSON to a country record.  `centroidOf` models the external
`d3.geoCentroid`, returning a `[lng, lat]` pair. -/
noncomputable def processCountries (centroidOf : Geometry → ℝ × ℝ)
    (features : List Feature) : List Country :=
  features.map (fun f =>
    { name := resolvedName f
      isoCode := f.isoA2
      centroid := ⟨(centroidOf f.geometry).2, (centroidOf f.geometry).1⟩
      position := getPositionFromLatLon (centroidOf f.geometry).2
        (centroidOf f.geometry).1 1
      geometry := f.geometry })

/-- The `for … break` scan in `handleGlobeClick`: walk the country list in
order and stop at the first record whose boundary contains the point. -/
def findCountry (prim : List (List (ℝ × ℝ)) → ℝ × ℝ → Bool) :
    List Country → ℝ × ℝ → Option Country
  | [], _ => none
  | c :: rest, pt =>
      if geoContains prim c.geometry pt then some c else findCountry prim rest pt

/-- Steps 2–3 of `handleGlobeClick`: convert the local-frame click point to
latitude/longitude and scan the country list for the first containing
record. -/
noncomputable def resolveCountry (prim : List (List (ℝ × ℝ)) → ℝ × ℝ → Bool)
    (countries : List Country) (localPoint : Vec3) : Option Country :=
  let coords := getLatLonFromPoint localPoint
  findCountry prim countries (coords.lng, coords.lat)

/-- C2: the click scan walks the loaded country list in dataset order and
returns the first record whose boundary contains the point — it coincides
with List.find? on the containment test, so dataset order is the tie-break
and no record after the first match is consulted. -/
theorem C2_first_match (prim : List (List (ℝ × ℝ)) → ℝ × ℝ → Bool)
    (countries : List Country) (pt : ℝ × ℝ) :
    findCountry prim countries pt =
      countries.find? (fun c => geoContains prim c.geometry pt) := by
  induction countries with
  | nil => rfl
  | cons c rest ih =>
      by_cases h : geoContains prim c.geometry pt
      · simp [findCountry, h, List.find?_cons_of_pos]
      · simp only [findCountry, if_neg h, ih]
        rw [List.find?_cons_of_neg]
        simp [h]

/-- C9: a record whose geometry is missing or of a type d3-geo has no handler
for never matches, so the scan skips it and continues over the remaining
records exactly as if it were absent. -/
theorem C9_skip_malformed (prim : List (List (ℝ × ℝ)) → ℝ × ℝ → Bool)
    (pre post : List Country) (c : Country) (pt : ℝ × ℝ)
    (h : c.geometry = Geometry.unsupportedType ∨ c.geometry = Geometry.missing) :
    findCountry prim (pre ++ c :: post) pt = findCountry prim (pre ++ post) pt := by
  induction pre with
  | nil =>
      simp only [List.nil_append, findCountry]
      rcases h with h | h <;> rw [h] <;> simp [geoContains, findCountry]
  | cons d rest ih =>
      simp only [List.cons_append, findCountry, List.append_eq, ih]

/-- Witness for C9: a record with a null geometry sitting alone in the list
is scanned past exactly as if the list were empty. -/
theorem C9_skip_malformed_witness :
    ((⟨none, none, ⟨0, 0⟩, ⟨0, 0, 0⟩, Geometry.missing⟩ : Country).geometry =
        Geometry.unsupportedType ∨
      (⟨none, none, ⟨0, 0⟩, ⟨0, 0, 0⟩, Geometry.missing⟩ : Country).geometry =
        Geometry.missing) ∧
    findCountry (fun _ _ => false)
        ([] ++ (⟨none, none, ⟨0, 0⟩, ⟨0, 0, 0⟩, Geometry.missing⟩ : Country) :: [])
        (0, 0) =
      findCountry (fun _ _ => false) ([] ++ []) (0, 0) :=
  ⟨Or.inr rfl,
    C9_skip_malformed (fun _ _ => false) [] [] _ (0, 0) (Or.inr rfl)⟩

/-- `CountryData` from `src/client/types.ts`, restricted to the fields the
selection flow reads and writes. -/
structure CountryData where
  name : String
  flagEmoji : String
  code : Option String
  capital : String
  description : String
  population : String
  touristSites : List String
  coordinates : Coordinates

/-- The pieces of `App` component state written by the selection, loading and
search logic in `App.tsx`. -/
structure AppState where
  selectedLocation : Option Coordinates
  selectedCountryName : Option String
  countryData : Option CountryData
  isLoading : Bool
  searchQuery : String
  isSearchOpen : Bool

/-- `handleCountrySelect` from `App.tsx`, run to completion, as a state
transformer.  `api` models the awaited `getCountryDetailsByName` call; the
returned flag records whether that request was issued.  `name` is the first
argument (`none` models a feature whose name resolved to JS `undefined`;
`null` and `undefined` are both modelled as `none`). -/
def handleCountrySelect
    (api : Option String → Coordinates → Option CountryData)
    (s : AppState) (name : Option String) (coords : Coordinates)
    (isoCode : Option String) : AppState × Bool :=
  if name = s.selectedCountryName ∧ s.countryData.isSome then (s, false)
  else
    ({ s with
        searchQuery := ""
        isSearchOpen := false
        selectedLocation := some coords
        selectedCountryName := name
        countryData :=
          match api name coords with
          | some d => some { d with
              code := if truthy isoCode then isoCode else d.code }
          | none => none
        isLoading := false }, true)

/-- The payload `handleSelectCountry` in `Globe.tsx` hands to
`onCountrySelect` (name, centroid, ISO code); it also marks that the camera
transition toward the country was started. -/
structure SelectEvent where
  name : Option String
  coords : Coordinates
  isoCode : Option String

/-- `handleGlobeClick` composed with the selection it triggers: resolve the
country under the local-frame click point; when one is found,
`handleSelectCountry` fires `onCountrySelect` (i.e. `handleCountrySelect`)
and starts the camera move; when none is found nothing at all happens.
Returns the resulting app state, the emitted selection event (`none` for a
miss), and whether an API request was issued. -/
noncomputable def clickStep
    (api : Option String → Coordinates → Option CountryData)
    (prim : List (List (ℝ × ℝ)) → ℝ × ℝ → Bool)
    (countries : List Country) (s : AppState) (localPoint : Vec3) :
    AppState × Option SelectEvent × Bool :=
  match resolveCountry prim countries localPoint with
  | none => (s, none, false)
  | some c =>
      ((handleCountrySelect api s c.name c.centroid c.isoCode).1,
        some ⟨c.name, c.centroid, c.isoCode⟩,
        (handleCountrySelect api s c.name c.centroid c.isoCode).2)

/-- C5: a click over open ocean is a plain negative result, not an error:
when no country's boundary contains the computed coordinate the handler
emits no selection event, issues no API request, and leaves the app state
(and hence the camera-driving selection) unchanged. -/
theorem C5_no_match_noop (api : Option String → Coordinates → Option CountryData)
    (prim : List (List (ℝ × ℝ)) → ℝ × ℝ → Bool)
    (countries : List Country) (s : AppState) (p : Vec3)
    (h : resolveCountry prim countries p = none) :
    clickStep api prim countries s p = (s, none, false) := by
  unfold clickStep
  rw [h]

/-- Witness for C5 on the empty country list. -/
theorem C5_no_match_noop_witness :
    resolveCountry (fun _ _ => false) [] ⟨1, 0, 0⟩ = none ∧
    clickStep (fun _ _ => none) (fun _ _ => false) []
        ⟨none, none, none, false, "", false⟩ ⟨1, 0, 0⟩ =
      (⟨none, none, none, false, "", false⟩, none, false) :=
  ⟨rfl, C5_no_match_noop (fun _ _ => none) (fun _ _ => false) []
    ⟨none, none, none, false, "", false⟩ ⟨1, 0, 0⟩ rfl⟩

/-- C8: the hit-test reads nothing but the immutable country list and the
local-frame click point: run in any two app states (for example before and
after a previous click mutated the selection) it emits the same selection
event, so repeated hit-tests on the same input agree. -/
theorem C8_deterministic (api : Option String → Coordinates → Option CountryData)
    (prim : List (List (ℝ × ℝ)) → ℝ × ℝ → Bool)
    (countries : List Country) (p : Vec3) (s₁ s₂ : AppState) :
    (clickStep api prim countries s₁ p).2.1 =
      (clickStep api prim countries s₂ p).2.1 := by
  unfold clickStep
  cases hr : resolveCountry prim countries p <;> simp [hr]

/-- C10: re-selecting the already-selected country while its data is loaded
returns early: every field of the state is unchanged and no API request is
issued. -/
theorem C10_reselect_noop
    (api : Option String → Coordinates → Option CountryData)
    (s : AppState) (n : String) (coords : Coordinates)
    (isoCode : Option String) (d : CountryData)
    (h1 : s.selectedCountryName = some n) (h2 : s.countryData = some d) :
    handleCountrySelect api s (some n) coords isoCode = (s, false) := by
  unfold handleCountrySelect
  rw [if_pos ⟨h1.symm, by rw [h2]; rfl⟩]

/-- Witness for C10 at a concrete loaded state. -/
theorem C10_reselect_noop_witness :
    (⟨some ⟨10, 20⟩, some "France",
        some ⟨"France", "", none, "Paris", "", "", [], ⟨10, 20⟩⟩,
        false, "", false⟩ : AppState).selectedCountryName = some "France" ∧
    (⟨some ⟨10, 20⟩, some "France",
        some ⟨"France", "", none, "Paris", "", "", [], ⟨10, 20⟩⟩,
        false, "", false⟩ : AppState).countryData =
      some ⟨"France", "", none, "Paris", "", "", [], ⟨10, 20⟩⟩ ∧
    handleCountrySelect (fun _ _ => none)
        ⟨some ⟨10, 20⟩, some "France",
          some ⟨"France", "", none, "Paris", "", "", [], ⟨10, 20⟩⟩,
          false, "", false⟩ (some "France") ⟨0, 0⟩ none =
      (⟨some ⟨10, 20⟩, some "France",
          some ⟨"France", "", none, "Paris", "", "", [], ⟨10, 20⟩⟩,
          false, "", false⟩, false) :=
  ⟨rfl, rfl,
    C10_reselect_noop (fun _ _ => none) _ "France" ⟨0, 0⟩ none
      ⟨"France", "", none, "Paris", "", "", [], ⟨10, 20⟩⟩ rfl rfl⟩

/-- A scan prefix containing no match is walked past. -/
theorem findCountry_append_none (prim : List (List (ℝ × ℝ)) → ℝ × ℝ → Bool)
    (pre post : List Country) (pt : ℝ × ℝ)
    (hpre : ∀ c' ∈ pre, geoContains prim c'.geometry pt = false) :
    findCountry prim (pre ++ post) pt = findCountry prim post pt := by
  induction pre with
  | nil => rfl
  | cons d rest ih =>
      simp only [List.cons_append, findCountry, List.append_eq]
      rw [hpre d (List.mem_cons_self d rest)]
      simp only [Bool.false_eq_true, if_false]
      exact ih (fun c' hc' => hpre c' (List.mem_cons_of_mem d hc'))

/-- Every record produced by the countries memo carries the 3D position of
its own centroid. -/
theorem position_of_mem_processCountries (centroidOf : Geometry → ℝ × ℝ)
    (features : List Feature) (c : Country)
    (hc : c ∈ processCountries centroidOf features) :
    c.position = getPositionFromLatLon c.centroid.lat c.centroid.lng 1 := by
  unfold processCountries at hc
  rcases List.mem_map.mp hc with ⟨f, _, rfl⟩
  rfl

/-- Containment oracle for the C3 counterexample: every polygon contains
every point, the behaviour d3-geo exhibits when two loaded records carry
overlapping (here: identical, globe-covering) boundaries. -/
def overlapPrim : List (List (ℝ × ℝ)) → ℝ × ℝ → Bool := fun _ _ => true

/-- First feature of the C3 counterexample dataset. -/
def featureA : Feature := ⟨some "A", none, none, none, Geometry.polygon [[]]⟩

/-- Second feature of the C3 counterexample dataset, with the same boundary
geometry as the first. -/
def featureB : Feature := ⟨some "B", none, none, none, Geometry.polygon [[]]⟩

/-- The countries memo computed from the two overlapping features, with a
centroid function placing both centroids at (0, 0). -/
noncomputable def cexCountries : List Country :=
  processCountries (fun _ => (0, 0)) [featureA, featureB]

/-- The first record of `cexCountries`. -/
noncomputable def countryA : Country :=
  ⟨some "A", none, ⟨0, 0⟩, getPositionFromLatLon 0 0 1, Geometry.polygon [[]]⟩

/-- The second record of `cexCountries`. -/
noncomputable def countryB : Country :=
  ⟨some "B", none, ⟨0, 0⟩, getPositionFromLatLon 0 0 1, Geometry.polygon [[]]⟩

/-- C3 as stated fails when loaded boundaries overlap: the second of two
records with identical boundaries has its centroid inside its own boundary,
yet hit-testing the 3D point of that centroid returns the first record,
because the scan stops at the first match in dataset order. -/
theorem C3_counterexample :
    countryB ∈ cexCountries ∧
    geoContains overlapPrim countryB.geometry
      (countryB.centroid.lng, countryB.centroid.lat) = true ∧
    resolveCountry overlapPrim cexCountries countryB.position ≠ some countryB := by
  have hlist : cexCountries = [countryA, countryB] := rfl
  refine ⟨by rw [hlist]; simp, rfl, ?_⟩
  have hres : resolveCountry overlapPrim cexCountries countryB.position =
      some countryA := rfl
  rw [hres]
  intro h
  have hname : countryA.name = countryB.name :=
    congrArg Country.name (Option.some.inj h)
  simp [countryA, countryB] at hname

/-- C3 (amended): for every country in the loaded set whose computed centroid
has latitude in (-90, 90) and longitude in [-180, 180) (the interior of
d3.geoCentroid's output range) and lies inside its own (possibly multi-part)
boundary, and whose centroid is contained in no earlier country of the
dataset order, converting that centroid to a 3D point with
getPositionFromLatLon and running the hit-test on that point resolves to
that same country. -/
theorem C3_centroid_hit_amended (prim : List (List (ℝ × ℝ)) → ℝ × ℝ → Bool)
    (centroidOf : Geometry → ℝ × ℝ) (features : List Feature)
    (pre post : List Country) (c : Country)
    (hsplit : processCountries centroidOf features = pre ++ c :: post)
    (hlat1 : -90 < c.centroid.lat) (hlat2 : c.centroid.lat < 90)
    (hlng1 : -180 ≤ c.centroid.lng) (hlng2 : c.centroid.lng < 180)
    (hself : geoContains prim c.geometry (c.centroid.lng, c.centroid.lat) = true)
    (hpre : ∀ c' ∈ pre,
      geoContains prim c'.geometry (c.centroid.lng, c.centroid.lat) = false) :
    resolveCountry prim (processCountries centroidOf features) c.position =
      some c := by
  have hmem : c ∈ processCountries centroidOf features := by
    rw [hsplit]
    exact List.mem_append_right pre (List.mem_cons_self c post)
  have hpos := position_of_mem_processCountries centroidOf features c hmem
  have hround : getLatLonFromPoint c.position = c.centroid := by
    rw [hpos]
    exact roundtrip_latlng _ _ hlat1 hlat2 hlng1 hlng2
  simp only [resolveCountry, hround]
  rw [hsplit, findCountry_append_none prim pre (c :: post) _ hpre]
  simp only [findCountry, hself, if_true]

/-- Single feature for the C3 witness dataset. -/
def featureW : Feature := ⟨some "W", none, none, none, Geometry.polygon [[]]⟩

/-- The single country record of the C3 witness dataset, with centroid
latitude 20 and longitude 10. -/
noncomputable def countryW : Country :=
  ⟨some "W", none, ⟨20, 10⟩, getPositionFromLatLon 20 10 1, Geometry.polygon [[]]⟩

/-- Witness for the amended C3 on a one-country dataset. -/
theorem C3_centroid_hit_amended_witness :
    geoContains overlapPrim countryW.geometry
      (countryW.centroid.lng, countryW.centroid.lat) = true ∧
    resolveCountry overlapPrim
        (processCountries (fun _ => (10, 20)) [featureW]) countryW.position =
      some countryW :=
  ⟨rfl,
    C3_centroid_hit_amended overlapPrim (fun _ => (10, 20)) [featureW] [] []
      countryW rfl (by norm_num [countryW]) (by norm_num [countryW])
      (by norm_num [countryW]) (by norm_num [countryW]) rfl
      (by intro c' hc'; exact absurd hc' (List.not_mem_nil c'))⟩

/-- One entry of the `allCountries` search dataset built in `App.tsx`:
resolved name, ISO code with the `|| ""` fallback, and centroid. -/
structure SearchEntry where
  name : Option String
  code : String
  centroid : Coordinates

/-- JavaScript `String.prototype.includes`: substring containment. -/
def jsIncludes (s sub : String) : Bool :=
  (List.range (s.length + 1)).any (fun i => sub.isPrefixOf (s.drop i))

/-- The `allCountries` list of `App.tsx`, built once after the GeoJSON
fetch: map every feature to a search entry, drop Antarctica, and sort by the
locale comparator (`cmp`, modelling `localeCompare`, kept abstract — sorting
only permutes the list). -/
noncomputable def allCountriesOf (centroidOf : Geometry → ℝ × ℝ)
    (cmp : SearchEntry → SearchEntry → Bool) (features : List Feature) :
    List SearchEntry :=
  (((features.map (fun f =>
      ({ name := resolvedName f
         code := (jsOr f.isoA2 (some "")).getD ""
         centroid := ⟨(centroidOf f.geometry).2, (centroidOf f.geometry).1⟩ }
        : SearchEntry))).filter
      (fun c => !(c.name == some "Antarctica"))).mergeSort cmp)

/-- The `filteredCountries` memo of `App.tsx`: an empty query yields no
results; otherwise the case-insensitive substring filter over
`allCountries`, truncated to the first five entries.  (The source reads
`c.name.toLowerCase()`; an absent name is read as the empty string here.) -/
def filteredCountries (searchQuery : String)
    (allCountries : List SearchEntry) : List SearchEntry :=
  if searchQuery = "" then []
  else (allCountries.filter (fun c =>
      jsIncludes (c.name.getD "").toLower searchQuery.toLower)).take 5

/-- The user interactions of `App.tsx` that touch the selection state. -/
inductive AppEvent where
  | globeClick (p : Vec3)
  | searchPick (i : ℕ)
  | closeCard
  | setQuery (q : String)

/-- One interaction step of `App.tsx`: a globe click runs the hit-test and
fires `handleCountrySelect` when a country is found; clicking the i-th
search-result button fires it with that entry's name, centroid and code;
`handleCloseCard` clears the selection; editing the search box updates the
query. -/
noncomputable def appStep (api : Option String → Coordinates → Option CountryData)
    (prim : List (List (ℝ × ℝ)) → ℝ × ℝ → Bool)
    (centroidOf : Geometry → ℝ × ℝ)
    (cmp : SearchEntry → SearchEntry → Bool)
    (features : List Feature) (s : AppState) : AppEvent → AppState
  | AppEvent.globeClick p =>
      (clickStep api prim (processCountries centroidOf features) s p).1
  | AppEvent.searchPick i =>
      match (filteredCountries s.searchQuery
          (allCountriesOf centroidOf cmp features))[i]? with
      | some entry =>
          (handleCountrySelect api s entry.name entry.centroid
            (some entry.code)).1
      | none => s
  | AppEvent.closeCard =>
      { s with selectedLocation := none, selectedCountryName := none,
               countryData := none }
  | AppEvent.setQuery q =>
      { s with searchQuery := q, isSearchOpen := true }

/-- The selection invariant: a non-null selected country name is the
resolved name of some feature of the loaded boundary dataset. -/
def SelInv (features : List Feature) (s : AppState) : Prop :=
  ∀ n, s.selectedCountryName = some n → some n ∈ features.map resolvedName

/-- The scan only ever returns a member of the scanned list. -/
theorem findCountry_mem (prim : List (List (ℝ × ℝ)) → ℝ × ℝ → Bool)
    (countries : List Country) (pt : ℝ × ℝ) (c : Country)
    (h : findCountry prim countries pt = some c) : c ∈ countries := by
  induction countries with
  | nil => exact absurd h (by simp [findCountry])
  | cons d rest ih =>
      rw [findCountry] at h
      by_cases hd : geoContains prim d.geometry pt
      · rw [if_pos hd] at h
        exact (Option.some.inj h) ▸ List.mem_cons_self d rest
      · rw [if_neg hd] at h
        exact List.mem_cons_of_mem d (ih h)

/-- `handleCountrySelect` either returns early, keeping the previous
selection, or records exactly the name it was handed. -/
theorem handleCountrySelect_selectedCountryName
    (api : Option String → Coordinates → Option CountryData)
    (s : AppState) (name : Option String) (coords : Coordinates)
    (isoCode : Option String) :
    (handleCountrySelect api s name coords isoCode).1.selectedCountryName =
        s.selectedCountryName ∨
    (handleCountrySelect api s name coords isoCode).1.selectedCountryName =
        name := by
  unfold handleCountrySelect
  by_cases h : name = s.selectedCountryName ∧ s.countryData.isSome
  · rw [if_pos h]
    exact Or.inl rfl
  · rw [if_neg h]
    exact Or.inr rfl

/-- C6: every interaction of `App.tsx` preserves the selection invariant.
The hit-test path and the search path — the only writers of the selection —
each supply a record derived from the loaded boundary dataset, so a non-null
`selectedCountryName` always names a loaded country record. -/
theorem C6_selection_invariant
    (api : Option String → Coordinates → Option CountryData)
    (prim : List (List (ℝ × ℝ)) → ℝ × ℝ → Bool)
    (centroidOf : Geometry → ℝ × ℝ) (cmp : SearchEntry → SearchEntry → Bool)
    (features : List Feature) (s : AppState) (e : AppEvent)
    (hs : SelInv features s) :
    SelInv features (appStep api prim centroidOf cmp features s e) := by
  cases e with
  | globeClick p =>
      intro n hn
      simp only [appStep, clickStep] at hn
      cases hr : resolveCountry prim (processCountries centroidOf features) p with
      | none =>
          simp only [hr] at hn
          exact hs n hn
      | some c =>
          simp only [hr] at hn
          rcases handleCountrySelect_selectedCountryName api s c.name
              c.centroid c.isoCode with heq | heq
          · rw [heq] at hn
            exact hs n hn
          · rw [heq] at hn
            have hcm : c ∈ processCountries centroidOf features := by
              have hfind : findCountry prim (processCountries centroidOf features)
                  ((getLatLonFromPoint p).lng, (getLatLonFromPoint p).lat) =
                  some c := by
                simpa [resolveCountry] using hr
              exact findCountry_mem _ _ _ _ hfind
            rcases List.mem_map.mp hcm with ⟨f, hf, hfc⟩
            have hname : c.name = resolvedName f := by rw [← hfc]
            rw [List.mem_map]
            exact ⟨f, hf, by rw [← hname, hn]⟩
  | searchPick i =>
      intro n hn
      simp only [appStep] at hn
      cases hres : (filteredCountries s.searchQuery
          (allCountriesOf centroidOf cmp features))[i]? with
      | none =>
          simp only [hres] at hn
          exact hs n hn
      | some entry =>
          simp only [hres] at hn
          rcases handleCountrySelect_selectedCountryName api s entry.name
              entry.centroid (some entry.code) with heq | heq
          · rw [heq] at hn
            exact hs n hn
          · rw [heq] at hn
            have hmem1 : entry ∈ filteredCountries s.searchQuery
                (allCountriesOf centroidOf cmp features) :=
              List.getElem?_mem hres
            have hmem2 : entry ∈ allCountriesOf centroidOf cmp features := by
              unfold filteredCountries at hmem1
              by_cases hq : s.searchQuery = ""
              · rw [if_pos hq] at hmem1
                exact absurd hmem1 (List.not_mem_nil _)
              · rw [if_neg hq] at hmem1
                exact List.mem_of_mem_filter (List.mem_of_mem_take hmem1)
            unfold allCountriesOf at hmem2
            rw [List.mem_mergeSort] at hmem2
            rcases List.mem_map.mp (List.mem_of_mem_filter hmem2) with ⟨f, hf, hfe⟩
            have hname : entry.name = resolvedName f := by rw [← hfe]
            rw [List.mem_map]
            exact ⟨f, hf, by rw [← hname, hn]⟩
  | closeCard =>
      intro n hn
      simp only [appStep] at hn
      exact Option.noConfusion hn
  | setQuery q =>
      intro n hn
      simp only [appStep] at hn
      exact hs n hn

/-- Witness for C6: the empty dataset and initial state, stepped by a
card-close event. -/
theorem C6_selection_invariant_witness :
    SelInv [] ⟨none, none, none, false, "", false⟩ ∧
    SelInv [] (appStep (fun _ _ => none) (fun _ _ => false) (fun _ => (0, 0))
      (fun _ _ => true) [] ⟨none, none, none, false, "", false⟩
      AppEvent.closeCard) :=
  ⟨fun _ hn => Option.noConfusion hn,
    C6_selection_invariant (fun _ _ => none) (fun _ _ => false)
      (fun _ => (0, 0)) (fun _ _ => true) [] ⟨none, none, none, false, "", false⟩
      AppEvent.closeCard (fun _ hn => Option.noConfusion hn)⟩
